import Mathlib

/-!
Verification development for the polymarket-llm-news-strategy repository.

Shallow embedding of the core simulation and feature-aggregation engine:
`backtest.py` (per-market backtest scan, settlement and summary statistics)
and `features.py` (hourly sentiment feature builder).

Modelling conventions:
* Python floats are modelled as rationals (`ℚ`).
* `backtest.py` timestamps are rationals counting seconds (so
  `total_seconds() / 3600` becomes division by 3600).
* `features.py` timestamps are rationals counting hours; the 1-hour
  resample bin of an event is the floor of its timestamp, and the anchor
  instant `now` (obtained from the wall clock in the source) is passed
  explicitly as a whole-hour index.
* pandas dataframes become lists of rows; a single-column series becomes a
  list of rationals aligned with a separately-kept index list.
-/

namespace PolymarketNews

/-- The numeric configuration fields of `Settings` (config.py) that the core
engine reads.  Directory and API-credential fields feed only the excluded
I/O collaborators and are omitted. -/
structure Settings where
  backtest_months : ℕ
  sentiment_window_hours : ℕ
  sentiment_buy_threshold : ℚ
  sentiment_sell_threshold : ℚ
  max_hours_to_resolve_for_entry : ℚ
  trade_size_usd : ℚ
deriving DecidableEq

/-- Default values from `config.py`. -/
def defaultSettings : Settings :=
  { backtest_months := 6
    sentiment_window_hours := 6
    sentiment_buy_threshold := 0.3
    sentiment_sell_threshold := -0.3
    max_hours_to_resolve_for_entry := 72
    trade_size_usd := 100 }

/-- `MarketConfig` (backtest.py): immutable descriptor of one market.
Timestamps are in seconds. -/
structure MarketConfig where
  token_id : String
  market_id : String
  question : String
  created_at : ℚ
  resolve_time : ℚ
  outcome : String
deriving DecidableEq

/-- One row of the price dataframe handed to `run_for_market`. -/
structure PriceRow where
  ts : ℚ
  price : ℚ
deriving DecidableEq

/-- One row of the hourly sentiment dataframe (indexed by `ts`). -/
structure SentRow where
  ts : ℚ
  sentiment_score : ℚ
  article_count : ℚ
deriving DecidableEq

/-- The `position` dict built inside `Backtester.run_for_market`. -/
structure Position where
  side : String
  shares : ℚ
  entry_price : ℚ
  entry_ts : ℚ
  article_count_at_entry : ℚ
  sentiment_score_at_entry : ℚ
deriving DecidableEq

/-- The result dict returned by `Backtester.run_for_market`. -/
structure TradeResult where
  market_id : String
  token_id : String
  question : String
  side : Option String
  entry_ts : Option ℚ
  resolve_time : ℚ
  entry_price : Option ℚ
  outcome : String
  pnl : ℚ
  article_count_at_entry : Option ℚ
  sentiment_score_at_entry : Option ℚ
deriving DecidableEq

/-- The summary dict returned by `Backtester.summarize_trades`. -/
structure Summary where
  num_trades : ℕ
  win_rate : ℚ
  avg_pnl : ℚ
  total_pnl : ℚ
  max_drawdown : ℚ
deriving DecidableEq

/-- Sentiment lookup of `run_for_market`:
`df_sentiment.loc[ts] if ts in df_sentiment.index else None`, then reading
`sentiment_score` and `article_count` with defaults `0.0` and `0`. -/
def sentimentAt (df_sentiment : List SentRow) (ts : ℚ) : ℚ × ℚ :=
  match df_sentiment.find? (fun row => row.ts = ts) with
  | some row => (row.sentiment_score, row.article_count)
  | none => (0, 0)

/-- Body of the entry branch of the scan loop in `run_for_market`
(backtest.py lines 56-86), evaluated when no position is held yet:
the hours-to-resolve skip, the `[0.25, 0.75]` price gate, the YES branch,
and the guarded NO branch. -/
def tryEnter (s : Settings) (mc : MarketConfig) (score count : ℚ)
    (row : PriceRow) : Option Position :=
  if s.max_hours_to_resolve_for_entry < (mc.resolve_time - row.ts) / 3600 then
    none
  else if 0.25 ≤ row.price ∧ row.price ≤ 0.75 then
    if s.sentiment_buy_threshold ≤ score then
      some { side := "YES"
             shares := s.trade_size_usd / row.price
             entry_price := row.price
             entry_ts := row.ts
             article_count_at_entry := count
             sentiment_score_at_entry := score }
    else if score ≤ s.sentiment_sell_threshold then
      let no_price := 1 - row.price
      let shares := if 0 < no_price then s.trade_size_usd / no_price else 0
      if 0 < shares then
        some { side := "NO"
               shares := shares
               entry_price := no_price
               entry_ts := row.ts
               article_count_at_entry := count
               sentiment_score_at_entry := score }
      else none
    else none
  else none

/-- One iteration of the `for ts, price_row in df_prices.iterrows()` loop:
an already-open position is kept unchanged, otherwise the entry branch runs
on this row with the sentiment looked up at its timestamp. -/
def scanStep (s : Settings) (mc : MarketConfig) (df_sentiment : List SentRow)
    (position : Option Position) (row : PriceRow) : Option Position :=
  match position with
  | some p => some p
  | none =>
      tryEnter s mc (sentimentAt df_sentiment row.ts).1
        (sentimentAt df_sentiment row.ts).2 row

/-- The whole scan loop of `run_for_market`, started with `position = None`. -/
def scanPositions (s : Settings) (mc : MarketConfig)
    (df_sentiment : List SentRow) (rows : List PriceRow) : Option Position :=
  rows.foldl (scanStep s mc df_sentiment) none

/-- The row filter applied by `run_for_market` (backtest.py line 46):
keep timestamps in `[created_at, resolve_time]`. -/
def inWindow (mc : MarketConfig) (row : PriceRow) : Bool :=
  decide (mc.created_at ≤ row.ts) && decide (row.ts ≤ mc.resolve_time)

/-- `Backtester.run_for_market`: filter the price rows to the market window,
run the scan, then settle the (optional) position against the outcome. -/
def run_for_market (s : Settings) (mc : MarketConfig)
    (df_prices : List PriceRow) (df_sentiment : List SentRow) : TradeResult :=
  let filtered := df_prices.filter (inWindow mc)
  match scanPositions s mc df_sentiment filtered with
  | none =>
      { market_id := mc.market_id
        token_id := mc.token_id
        question := mc.question
        side := none
        entry_ts := none
        resolve_time := mc.resolve_time
        entry_price := none
        outcome := mc.outcome
        pnl := 0
        article_count_at_entry := none
        sentiment_score_at_entry := none }
  | some p =>
      let payoff :=
        if p.side = "YES" then
          p.shares * (if mc.outcome = "YES" then 1 else 0)
        else
          p.shares * (if mc.outcome = "NO" then 1 else 0)
      { market_id := mc.market_id
        token_id := mc.token_id
        question := mc.question
        side := some p.side
        entry_ts := some p.entry_ts
        resolve_time := mc.resolve_time
        entry_price := some p.entry_price
        outcome := mc.outcome
        pnl := payoff - s.trade_size_usd
        article_count_at_entry := some p.article_count_at_entry
        sentiment_score_at_entry := some p.sentiment_score_at_entry }

/-- Running cumulative sum (`Series.cumsum`) with an explicit accumulator. -/
def cumsumFrom (acc : ℚ) : List ℚ → List ℚ
  | [] => []
  | x :: xs => (acc + x) :: cumsumFrom (acc + x) xs

/-- `Series.cumsum` starting from 0. -/
def cumsum (xs : List ℚ) : List ℚ :=
  cumsumFrom 0 xs

/-- Running maximum continuing from a known maximum `m`. -/
def runningMaxFrom (m : ℚ) : List ℚ → List ℚ
  | [] => []
  | x :: xs => max m x :: runningMaxFrom (max m x) xs

/-- `Series.cummax`. -/
def runningMax : List ℚ → List ℚ
  | [] => []
  | x :: xs => x :: runningMaxFrom x xs

/-- `Backtester.summarize_trades` (backtest.py lines 132-160). -/
def summarize_trades (df_trades : List TradeResult) : Summary :=
  if df_trades.isEmpty then
    { num_trades := 0, win_rate := 0, avg_pnl := 0, total_pnl := 0,
      max_drawdown := 0 }
  else
    let num_trades := (df_trades.filter (fun t => t.side.isSome)).length
    let wins := (df_trades.filter (fun t => decide (0 < t.pnl))).length
    let win_rate : ℚ :=
      if num_trades = 0 then 0 else (wins : ℚ) / (num_trades : ℚ)
    let pnls := df_trades.map (fun t => t.pnl)
    let avg_pnl := pnls.sum / (df_trades.length : ℚ)
    let total_pnl := pnls.sum
    let equity_curve := cumsum pnls
    let running_max := runningMax equity_curve
    let drawdown := List.zipWith (fun a b => a - b) equity_curve running_max
    let max_drawdown :=
      match drawdown with
      | [] => 0
      | d :: ds => ds.foldl min d
    { num_trades := num_trades
      win_rate := win_rate
      avg_pnl := avg_pnl
      total_pnl := total_pnl
      max_drawdown := max_drawdown }

/-- One labeled news record consumed by the feature builder
(features.py).  `published_at` counts hours. -/
structure NewsEvent where
  published_at : ℚ
  relevance : ℤ
  sentiment : ℤ
deriving DecidableEq

/-- One row of the feature dataframe produced by
`build_macro_sentiment_timeseries`.  `ts` is a whole-hour index. -/
structure FeatureRow where
  ts : ℤ
  sentiment_score : ℚ
  bullish_ratio : ℚ
  bearish_ratio : ℚ
  article_count : ℚ
deriving DecidableEq

/-- The relevance filter `df = df[df["relevance"] == 1]`. -/
def relevantNews (df : List NewsEvent) : List NewsEvent :=
  df.filter (fun e => decide (e.relevance = 1))

/-- The 1-hour resample bin holding an event: the floor of its hour-valued
timestamp. -/
def binOf (e : NewsEvent) : ℤ :=
  ⌊e.published_at⌋

/-- The events of a given 1-hour bin. -/
def binEvents (evs : List NewsEvent) (h : ℤ) : List NewsEvent :=
  evs.filter (fun e => decide (binOf e = h))

/-- Per-bin `article_count` (the resampled `article` column: one per event). -/
def binCount (evs : List NewsEvent) (h : ℤ) : ℚ :=
  ((binEvents evs h).map (fun _ => (1 : ℚ))).sum

/-- Per-bin `sentiment_sum` (the resampled sum of sentiment labels). -/
def binSentSum (evs : List NewsEvent) (h : ℤ) : ℚ :=
  ((binEvents evs h).map (fun e => (e.sentiment : ℚ))).sum

/-- Per-bin bullish count (`sentiment == 1` indicator, resampled-summed). -/
def binBullish (evs : List NewsEvent) (h : ℤ) : ℚ :=
  ((binEvents evs h).map (fun e => if e.sentiment = 1 then (1 : ℚ) else 0)).sum

/-- Per-bin bearish count (`sentiment == -1` indicator, resampled-summed). -/
def binBearish (evs : List NewsEvent) (h : ℤ) : ℚ :=
  ((binEvents evs h).map (fun e => if e.sentiment = -1 then (1 : ℚ) else 0)).sum

/-- The target index
`pd.date_range(now - 30*backtest_months days, now, freq="1h")`:
`30·backtest_months·24 + 1` consecutive whole hours ending at `now`. -/
def hourIndex (s : Settings) (now : ℤ) : List ℤ :=
  (List.range (30 * s.backtest_months * 24 + 1)).map
    (fun k => now - 30 * (s.backtest_months : ℤ) * 24 + k)

/-- The bins materialised by `.resample("1h")`: every hour from the first
event's bin to the last event's bin. -/
def resampleHours (evs : List NewsEvent) : List ℤ :=
  match evs with
  | [] => []
  | e :: rest =>
      let hmin := (rest.map binOf).foldl min (binOf e)
      let hmax := (rest.map binOf).foldl max (binOf e)
      (List.range ((hmax - hmin).toNat + 1)).map (fun k => hmin + k)

/-- An indexed single-column table: each index hour paired with its value. -/
def tableOf (g : ℤ → ℚ) (hs : List ℤ) : List (ℤ × ℚ) :=
  hs.map (fun h => (h, g h))

/-- Value lookup used by `.reindex(..., fill_value=0)`: the value stored at
hour `h`, or 0 when `h` has no row. -/
def lookupD (tbl : List (ℤ × ℚ)) (h : ℤ) : ℚ :=
  match tbl.find? (fun pr => decide (pr.1 = h)) with
  | some pr => pr.2
  | none => 0

/-- `.reindex(index, fill_value=0)` of a single column. -/
def reindexColumn (index : List ℤ) (tbl : List (ℤ × ℚ)) : List ℚ :=
  index.map (lookupD tbl)

/-- `.rolling(window=f"{w}h", min_periods=1).sum()` over an hourly-spaced
series: at position `i`, the sum of the last `min (i+1) w` values. -/
def trailingSum (w : ℕ) (xs : List ℚ) : List ℚ :=
  (List.range xs.length).map (fun i => ((xs.take (i + 1)).drop (i + 1 - w)).sum)

/-- One resampled-and-reindexed column of the feature pipeline: the per-bin
aggregate `g` materialised on the resample range, then reindexed onto the
target hourly index with zero fill. -/
def colOf (g : ℤ → ℚ) (rel : List NewsEvent) (s : Settings) (now : ℤ) :
    List ℚ :=
  reindexColumn (hourIndex s now) (tableOf g (resampleHours rel))

/-- The feature rows produced from a non-empty relevant-news list: the four
trailing-window series and the per-hour ratio rows with the
`replace({0: 1})` denominator. -/
def buildRows (rel : List NewsEvent) (s : Settings) (now : ℤ) :
    List FeatureRow :=
  let index := hourIndex s now
  let w := s.sentiment_window_hours
  let rollingCount := trailingSum w (colOf (binCount rel) rel s now)
  let rollingSum := trailingSum w (colOf (binSentSum rel) rel s now)
  let rollingBull := trailingSum w (colOf (binBullish rel) rel s now)
  let rollingBear := trailingSum w (colOf (binBearish rel) rel s now)
  (List.range index.length).map (fun i =>
    let rc := rollingCount.getD i 0
    let denom := if rc = 0 then 1 else rc
    { ts := index.getD i 0
      sentiment_score := rollingSum.getD i 0 / denom
      bullish_ratio := rollingBull.getD i 0 / denom
      bearish_ratio := rollingBear.getD i 0 / denom
      article_count := rc })

/-- `build_macro_sentiment_timeseries` (features.py).  The wall-clock
anchor `now` (read twice from `datetime.now` in the source, modelled as one
instant) is an explicit whole-hour argument; the parquet persistence is
excluded I/O. -/
def build_macro_sentiment_timeseries (df_labeled_news : List NewsEvent)
    (s : Settings) (now : ℤ) : List FeatureRow :=
  if df_labeled_news.isEmpty then []
  else
    let rel := relevantNews df_labeled_news
    if rel.isEmpty then []
    else buildRows rel s now

/-! ## Helper lemmas about the scan loop -/

/-- An already-open position is returned unchanged by a scan step. -/
theorem scanStep_some (s : Settings) (mc : MarketConfig)
    (d : List SentRow) (p : Position) (row : PriceRow) :
    scanStep s mc d (some p) row = some p := rfl

/-- Folding the scan over any further rows keeps an open position as is. -/
theorem foldl_scanStep_some (s : Settings) (mc : MarketConfig)
    (d : List SentRow) (p : Position) :
    ∀ rows : List PriceRow, rows.foldl (scanStep s mc d) (some p) = some p := by
  intro rows
  induction rows with
  | nil => rfl
  | cons r rest ih => simpa [List.foldl_cons, scanStep_some] using ih

/-- With no position yet, a scan step is the entry branch on that row. -/
theorem scanStep_none (s : Settings) (mc : MarketConfig)
    (d : List SentRow) (row : PriceRow) :
    scanStep s mc d none row =
      tryEnter s mc (sentimentAt d row.ts).1 (sentimentAt d row.ts).2 row := rfl

/-- If the scan ends with a position, some row of the input produced it on a
step started from the empty state. -/
theorem scanPositions_eq_some (s : Settings) (mc : MarketConfig)
    (d : List SentRow) :
    ∀ (rows : List PriceRow) (p : Position),
      scanPositions s mc d rows = some p →
      ∃ r ∈ rows, scanStep s mc d none r = some p := by
  intro rows
  induction rows with
  | nil => intro p h; simp [scanPositions] at h
  | cons r rest ih =>
      intro p h
      rw [scanPositions, List.foldl_cons] at h
      cases hstep : scanStep s mc d none r with
      | none =>
          rw [hstep] at h
          obtain ⟨r', hr', h'⟩ := ih p h
          exact ⟨r', List.mem_cons_of_mem _ hr', h'⟩
      | some q =>
          rw [hstep, foldl_scanStep_some] at h
          cases h
          exact ⟨r, List.mem_cons_self _ _, hstep⟩

/-- Inversion of the entry branch: everything that must have held at a tick
for it to produce a position, and the fields the position was built with. -/
theorem tryEnter_eq_some {s : Settings} {mc : MarketConfig} {score count : ℚ}
    {row : PriceRow} {p : Position}
    (h : tryEnter s mc score count row = some p) :
    (mc.resolve_time - row.ts) / 3600 ≤ s.max_hours_to_resolve_for_entry ∧
    0.25 ≤ row.price ∧ row.price ≤ 0.75 ∧
    p.entry_ts = row.ts ∧
    p.sentiment_score_at_entry = score ∧
    p.article_count_at_entry = count ∧
    ((p.side = "YES" ∧ s.sentiment_buy_threshold ≤ score ∧
        p.entry_price = row.price ∧
        p.shares = s.trade_size_usd / row.price) ∨
      (p.side = "NO" ∧ score ≤ s.sentiment_sell_threshold ∧
        p.entry_price = 1 - row.price ∧
        p.shares = s.trade_size_usd / (1 - row.price) ∧
        0 < 1 - row.price ∧ 0 < p.shares)) := by
  unfold tryEnter at h
  split at h
  · exact absurd h (by simp)
  · next hHours =>
    split at h
    · next hGate =>
      split at h
      · next hBuy =>
          cases h
          exact ⟨not_lt.mp hHours, hGate.1, hGate.2, rfl, rfl, rfl,
            Or.inl ⟨rfl, hBuy, rfl, rfl⟩⟩
      · next hBuy =>
          split at h
          · next hSell =>
              dsimp only at h
              split at h
              · next hnp =>
                  split at h
                  · next hShares =>
                      cases h
                      exact ⟨not_lt.mp hHours, hGate.1, hGate.2, rfl, rfl, rfl,
                        Or.inr ⟨rfl, hSell, rfl, rfl, hnp, hShares⟩⟩
                  · exact absurd h (by simp)
              · split at h
                · next hShares => exact absurd hShares (by norm_num)
                · exact absurd h (by simp)
          · exact absurd h (by simp)
    · exact absurd h (by simp)

/-- The side of any position produced by the scan is `"YES"` or `"NO"`. -/
theorem scanPositions_side (s : Settings) (mc : MarketConfig)
    (d : List SentRow) (rows : List PriceRow) (p : Position)
    (h : scanPositions s mc d rows = some p) :
    p.side = "YES" ∨ p.side = "NO" := by
  obtain ⟨r, _, hr⟩ := scanPositions_eq_some s mc d rows p h
  rw [scanStep_none] at hr
  rcases (tryEnter_eq_some hr).2.2.2.2.2.2 with hy | hn
  · exact Or.inl hy.1
  · exact Or.inr hn.1

/-! ## Concrete scenario data used by witnesses -/

/-- Scenario A market: window `[0, 7200]` seconds, outcome YES. -/
def mcA : MarketConfig := ⟨"token-a", "market-a", "q-a", 0, 7200, "YES"⟩

/-- Scenario A price series: 0.40 at t=0, 0.45 at t=3600. -/
def pricesA : List PriceRow := [⟨0, 0.4⟩, ⟨3600, 0.45⟩]

/-- Scenario A sentiment: score 0.5 at t=0. -/
def sentA : List SentRow := [⟨0, 0.5, 2⟩]

/-- The position Scenario A opens: YES at 0.40, 250 shares. -/
def posA : Position := ⟨"YES", 250, 0.4, 0, 2, 0.5⟩

/-- Scenario B market: outcome NO. -/
def mcB : MarketConfig := ⟨"token-b", "market-b", "q-b", 0, 7200, "NO"⟩

/-- Scenario B sentiment: score -0.5 at t=0. -/
def sentB : List SentRow := [⟨0, -0.5, 2⟩]

/-- Scenario B entry tick. -/
def rowB : PriceRow := ⟨0, 0.4⟩

/-- The position Scenario B opens: NO at 0.60, 100/0.6 shares. -/
def posB : Position := ⟨"NO", 100 / (0.6 : ℚ), 0.6, 0, 2, -0.5⟩

/-- Settings with a zero notional, making the computed NO-side share count
zero. -/
def settingsZeroTrade : Settings := { defaultSettings with trade_size_usd := 0 }

/-! ## Claims about the simulation engine -/

/-- Claim C1: for every market run, if the scan opens no position the
returned TradeResult has null side and zero pnl; if it opens a position
with `shares`, the pnl is payoff minus `trade_size_usd`, where the payoff
is `shares` exactly when the held side equals the market outcome and 0
otherwise. -/
theorem claim_C1_settlement (s : Settings) (mc : MarketConfig)
    (prices : List PriceRow) (sent : List SentRow) :
    (scanPositions s mc sent (prices.filter (inWindow mc)) = none →
      (run_for_market s mc prices sent).side = none ∧
      (run_for_market s mc prices sent).pnl = 0) ∧
    ∀ p : Position,
      scanPositions s mc sent (prices.filter (inWindow mc)) = some p →
      (run_for_market s mc prices sent).side = some p.side ∧
      (run_for_market s mc prices sent).pnl =
        (if p.side = mc.outcome then p.shares else 0) - s.trade_size_usd := by
  constructor
  · intro h
    simp [run_for_market, h]
  · intro p hp
    have hside := scanPositions_side s mc sent _ p hp
    simp only [run_for_market, hp]
    refine ⟨by simp, ?_⟩
    rcases hside with hy | hn
    · rw [hy]
      by_cases ho : mc.outcome = "YES"
      · simp [ho]
      · have hne : ¬("YES" = mc.outcome) := fun hh => ho hh.symm
        simp [ho, hne]
    · rw [hn]
      by_cases ho : mc.outcome = "NO"
      · simp [ho]
      · have hne : ¬("NO" = mc.outcome) := fun hh => ho hh.symm
        simp [ho, hne]

/-- Witness for C1: Scenario A opens a YES position and settles to
`pnl = 250 - 100 = 150` under outcome YES. -/
theorem claim_C1_settlement_witness :
    (run_for_market defaultSettings mcA pricesA sentA).side = some posA.side ∧
    (run_for_market defaultSettings mcA pricesA sentA).pnl =
      (if posA.side = mcA.outcome then posA.shares else 0) -
        defaultSettings.trade_size_usd :=
  (claim_C1_settlement defaultSettings mcA pricesA sentA).2 posA (by
    norm_num [scanPositions, scanStep, tryEnter, sentimentAt, inWindow,
      defaultSettings, mcA, pricesA, sentA, posA])

/-- Claim C2: when a market run opens a position, the entry tick (a row of
the filtered price series carrying the position's entry timestamp) has its
raw YES price in `[0.25, 0.75]` and is at most
`max_hours_to_resolve_for_entry` hours from resolution; the gate applies to
the raw YES price on both branches, the NO side paying `1 - price`. -/
theorem claim_C2_entry_gates (s : Settings) (mc : MarketConfig)
    (prices : List PriceRow) (sent : List SentRow) (p : Position)
    (h : scanPositions s mc sent (prices.filter (inWindow mc)) = some p) :
    ∃ row ∈ prices.filter (inWindow mc),
      row.ts = p.entry_ts ∧
      0.25 ≤ row.price ∧ row.price ≤ 0.75 ∧
      (mc.resolve_time - row.ts) / 3600 ≤ s.max_hours_to_resolve_for_entry ∧
      (p.side = "YES" → p.entry_price = row.price) ∧
      (p.side = "NO" → p.entry_price = 1 - row.price) := by
  obtain ⟨r, hr, hstep⟩ := scanPositions_eq_some s mc sent _ p h
  rw [scanStep_none] at hstep
  obtain ⟨hH, hg1, hg2, hts, _, _, hdisj⟩ := tryEnter_eq_some hstep
  refine ⟨r, hr, hts.symm, hg1, hg2, hH, ?_, ?_⟩
  · intro hy
    rcases hdisj with hY | hN
    · exact hY.2.2.1
    · rw [hN.1] at hy; simp at hy
  · intro hn
    rcases hdisj with hY | hN
    · rw [hY.1] at hn; simp at hn
    · exact hN.2.2.1

/-- Witness for C2: the Scenario A entry tick satisfies all gates. -/
theorem claim_C2_entry_gates_witness :
    ∃ row ∈ pricesA.filter (inWindow mcA),
      row.ts = posA.entry_ts ∧
      0.25 ≤ row.price ∧ row.price ≤ 0.75 ∧
      (mcA.resolve_time - row.ts) / 3600 ≤
        defaultSettings.max_hours_to_resolve_for_entry ∧
      (posA.side = "YES" → posA.entry_price = row.price) ∧
      (posA.side = "NO" → posA.entry_price = 1 - row.price) :=
  claim_C2_entry_gates defaultSettings mcA pricesA sentA posA (by
    norm_num [scanPositions, scanStep, tryEnter, sentimentAt, inWindow,
      defaultSettings, mcA, pricesA, sentA, posA])

/-- Claim C3: at most one position per scan — once a prefix of the price
series has produced a position, scanning any further rows returns the very
same position (same side, entry price and entry timestamp; no re-entry). -/
theorem claim_C3_single_entry (s : Settings) (mc : MarketConfig)
    (sent : List SentRow) (l1 l2 : List PriceRow) (p : Position)
    (h : scanPositions s mc sent l1 = some p) :
    scanPositions s mc sent (l1 ++ l2) = some p := by
  rw [scanPositions, List.foldl_append]
  rw [scanPositions] at h
  rw [h]
  exact foldl_scanStep_some s mc sent p l2

/-- Witness for C3: the position of Scenario A's first tick survives the
second tick unchanged. -/
theorem claim_C3_single_entry_witness :
    scanPositions defaultSettings mcA sentA
      ([PriceRow.mk 0 0.4] ++ [PriceRow.mk 3600 0.45]) = some posA :=
  claim_C3_single_entry defaultSettings mcA sentA
    [PriceRow.mk 0 0.4] [PriceRow.mk 3600 0.45] posA (by
      norm_num [scanPositions, scanStep, tryEnter, sentimentAt,
        defaultSettings, mcA, sentA, posA])

/-- Claim C7: a NO position is only ever created with
`entry_price = 1 - price > 0` and positive `shares = trade_size_usd / (1 - price)`;
and if the sell branch is reached but the computed share count is not
positive, the step declines entry and returns no position (no error). -/
theorem claim_C7_no_entry_guard (s : Settings) (mc : MarketConfig)
    (sent : List SentRow) (row : PriceRow) :
    (∀ p : Position, scanStep s mc sent none row = some p → p.side = "NO" →
      p.entry_price = 1 - row.price ∧
      p.shares = s.trade_size_usd / (1 - row.price) ∧
      0 < 1 - row.price ∧ 0 < p.shares) ∧
    ((mc.resolve_time - row.ts) / 3600 ≤ s.max_hours_to_resolve_for_entry →
      0.25 ≤ row.price → row.price ≤ 0.75 →
      ¬s.sentiment_buy_threshold ≤ (sentimentAt sent row.ts).1 →
      (sentimentAt sent row.ts).1 ≤ s.sentiment_sell_threshold →
      (if 0 < 1 - row.price then s.trade_size_usd / (1 - row.price) else 0) ≤ 0 →
      scanStep s mc sent none row = none) := by
  constructor
  · intro p hp hno
    rw [scanStep_none] at hp
    obtain ⟨_, _, _, _, _, _, hdisj⟩ := tryEnter_eq_some hp
    rcases hdisj with hY | hN
    · rw [hY.1] at hno; simp at hno
    · exact ⟨hN.2.2.1, hN.2.2.2.1, hN.2.2.2.2.1, hN.2.2.2.2.2⟩
  · intro hH hg1 hg2 hbuy hsell hsh
    rw [scanStep_none]
    unfold tryEnter
    rw [if_neg (not_lt.mpr hH), if_pos ⟨hg1, hg2⟩, if_neg hbuy, if_pos hsell]
    dsimp only
    rw [if_neg (not_lt.mpr hsh)]

/-- Witness for C7: Scenario B's NO entry carries the guaranteed fields, and
with a zero notional the same tick is declined. -/
theorem claim_C7_no_entry_guard_witness :
    (posB.entry_price = 1 - rowB.price ∧
      posB.shares = defaultSettings.trade_size_usd / (1 - rowB.price) ∧
      0 < 1 - rowB.price ∧ 0 < posB.shares) ∧
    scanStep settingsZeroTrade mcB sentB none rowB = none :=
  ⟨(claim_C7_no_entry_guard defaultSettings mcB sentB rowB).1 posB
      (by norm_num [scanStep, tryEnter, sentimentAt, defaultSettings, mcB,
        sentB, rowB, posB]) (by norm_num [posB]),
    (claim_C7_no_entry_guard settingsZeroTrade mcB sentB rowB).2
      (by norm_num [mcB, rowB, settingsZeroTrade, defaultSettings])
      (by norm_num [rowB]) (by norm_num [rowB])
      (by norm_num [sentimentAt, sentB, rowB, settingsZeroTrade, defaultSettings])
      (by norm_num [sentimentAt, sentB, rowB, settingsZeroTrade, defaultSettings])
      (by norm_num [rowB, settingsZeroTrade, defaultSettings])⟩

/-- Claim C10: `run_for_market` filters out-of-window price rows itself, so
it returns the same TradeResult on any price series as on that series
restricted to `[created_at, resolve_time]`. -/
theorem claim_C10_window_filter (s : Settings) (mc : MarketConfig)
    (prices : List PriceRow) (sent : List SentRow) :
    run_for_market s mc prices sent =
      run_for_market s mc (prices.filter (inWindow mc)) sent := by
  unfold run_for_market
  rw [List.filter_filter]
  simp [Bool.and_self]

/-! ## Helper lemmas about the equity curve -/

/-- Folding `min` over a list never rises above the start value. -/
theorem foldl_min_le : ∀ (l : List ℚ) (a : ℚ), l.foldl min a ≤ a := by
  intro l
  induction l with
  | nil => intro a; exact le_refl a
  | cons x xs ih =>
      intro a
      exact le_trans (ih (min a x)) (min_le_left a x)

/-- Folding `min` from 0 over a list of zeros gives 0. -/
theorem foldl_min_zero : ∀ l : List ℚ, (∀ x ∈ l, x = 0) → l.foldl min 0 = 0 := by
  intro l
  induction l with
  | nil => intro _; rfl
  | cons x xs ih =>
      intro h
      have hx : x = 0 := h x (List.mem_cons_self x xs)
      have : min (0 : ℚ) x = 0 := by rw [hx]; exact min_self 0
      rw [List.foldl_cons, this]
      exact ih (fun y hy => h y (List.mem_cons_of_mem x hy))

/-- With nonnegative increments the cumulative sum never dips below its
running maximum: every drawdown entry is zero. -/
theorem drawdown_of_nonneg :
    ∀ (xs : List ℚ) (acc m : ℚ), m ≤ acc → (∀ x ∈ xs, 0 ≤ x) →
      ∀ y ∈ List.zipWith (fun a b => a - b) (cumsumFrom acc xs)
        (runningMaxFrom m (cumsumFrom acc xs)), y = 0 := by
  intro xs
  induction xs with
  | nil => intro acc m _ _ y hy; simp [cumsumFrom] at hy
  | cons x xs ih =>
      intro acc m hm hx y hy
      have hx0 : 0 ≤ x := hx x (List.mem_cons_self x xs)
      have hmax : max m (acc + x) = acc + x :=
        max_eq_right (le_trans hm (by linarith))
      rw [cumsumFrom, runningMaxFrom, hmax, List.zipWith] at hy
      rcases List.mem_cons.mp hy with h0 | htail
      · rw [h0]; ring
      · exact ih (acc + x) (acc + x) le_rfl
          (fun z hz => hx z (List.mem_cons_of_mem x hz)) y htail

/-! ## Claims about the summary statistics -/

/-- Claim C8: on the empty trade collection `summarize_trades` returns all
zeros; on any collection `num_trades` counts rows with non-null side, and
`win_rate` is (rows with positive pnl) / `num_trades` when `num_trades > 0`
and 0 when `num_trades = 0` (never undefined). -/
theorem claim_C8_win_rate :
    summarize_trades ([] : List TradeResult) =
      { num_trades := 0, win_rate := 0, avg_pnl := 0, total_pnl := 0,
        max_drawdown := 0 } ∧
    ∀ df : List TradeResult,
      (summarize_trades df).num_trades =
        (df.filter (fun t => t.side.isSome)).length ∧
      ((df.filter (fun t => t.side.isSome)).length = 0 →
        (summarize_trades df).win_rate = 0) ∧
      (0 < (df.filter (fun t => t.side.isSome)).length →
        (summarize_trades df).win_rate =
          ((df.filter (fun t => decide (0 < t.pnl))).length : ℚ) /
            ((df.filter (fun t => t.side.isSome)).length : ℚ)) := by
  refine ⟨rfl, ?_⟩
  intro df
  cases df with
  | nil =>
      refine ⟨rfl, fun _ => rfl, ?_⟩
      intro h
      simp at h
  | cons t ts =>
      have hw : (summarize_trades (t :: ts)).win_rate =
          (if ((t :: ts).filter (fun t => t.side.isSome)).length = 0 then (0 : ℚ)
            else (((t :: ts).filter (fun t => decide (0 < t.pnl))).length : ℚ) /
              (((t :: ts).filter (fun t => t.side.isSome)).length : ℚ)) := rfl
      refine ⟨rfl, ?_, ?_⟩
      · intro h
        rw [hw, if_pos h]
      · intro h
        rw [hw, if_neg (Nat.pos_iff_ne_zero.mp h)]

/-- One settled winning trade used by summary witnesses. -/
def trA : TradeResult :=
  ⟨"market-a", "token-a", "q-a", some "YES", some 0, 7200, some 0.4, "YES",
    150, some 2, some 0.5⟩

/-- Witness for C8: one winning trade gives `win_rate = 1/1`. -/
theorem claim_C8_win_rate_witness :
    0 < (([trA] : List TradeResult).filter (fun t => t.side.isSome)).length ∧
    (summarize_trades [trA]).win_rate =
      (([trA] : List TradeResult).filter (fun t => decide (0 < t.pnl))).length /
        ((([trA] : List TradeResult).filter
          (fun t => t.side.isSome)).length : ℚ) :=
  ⟨by norm_num [trA],
    (claim_C8_win_rate.2 [trA]).2.2 (by norm_num [trA])⟩

/-- Claim C9: `max_drawdown` (minimum over the equity curve of equity minus
its running maximum) is never positive, and is exactly 0 whenever every pnl
is nonnegative. -/
theorem claim_C9_max_drawdown (df : List TradeResult) :
    (summarize_trades df).max_drawdown ≤ 0 ∧
    ((∀ t ∈ df, 0 ≤ t.pnl) → (summarize_trades df).max_drawdown = 0) := by
  cases df with
  | nil => exact ⟨le_refl 0, fun _ => rfl⟩
  | cons t ts =>
      have hmd : (summarize_trades (t :: ts)).max_drawdown =
          (List.zipWith (fun a b => a - b)
            (cumsumFrom (0 + t.pnl) (ts.map (fun x => x.pnl)))
            (runningMaxFrom (0 + t.pnl)
              (cumsumFrom (0 + t.pnl) (ts.map (fun x => x.pnl))))).foldl
            min ((0 + t.pnl) - (0 + t.pnl)) := rfl
      constructor
      · rw [hmd]
        have := foldl_min_le
          (List.zipWith (fun a b => a - b)
            (cumsumFrom (0 + t.pnl) (ts.map (fun x => x.pnl)))
            (runningMaxFrom (0 + t.pnl)
              (cumsumFrom (0 + t.pnl) (ts.map (fun x => x.pnl)))))
          ((0 + t.pnl) - (0 + t.pnl))
        calc _ ≤ (0 + t.pnl) - (0 + t.pnl) := this
        _ = 0 := by ring
      · intro h
        have hz : ∀ y ∈ List.zipWith (fun a b => a - b)
            (cumsumFrom (0 + t.pnl) (ts.map (fun x => x.pnl)))
            (runningMaxFrom (0 + t.pnl)
              (cumsumFrom (0 + t.pnl) (ts.map (fun x => x.pnl)))), y = 0 := by
          apply drawdown_of_nonneg _ _ _ le_rfl
          intro x hx
          obtain ⟨u, hu, rfl⟩ := List.mem_map.mp hx
          exact h u (List.mem_cons_of_mem t hu)
        rw [hmd, sub_self]
        exact foldl_min_zero _ hz

/-- Witness for C9: a single winning trade has zero max drawdown. -/
theorem claim_C9_max_drawdown_witness :
    (summarize_trades [trA]).max_drawdown ≤ 0 ∧
    (summarize_trades [trA]).max_drawdown = 0 :=
  ⟨(claim_C9_max_drawdown [trA]).1,
    (claim_C9_max_drawdown [trA]).2 (by norm_num [trA])⟩

/-! ## Helper lemmas about the feature builder -/

/-- Default row used for positional access in feature-builder lemmas. -/
def defaultFeatureRow : FeatureRow := ⟨0, 0, 0, 0, 0⟩

/-- Positional access into a map over `List.range`. -/
theorem getD_map_range {α : Type} (d : α) :
    ∀ (n : ℕ) (f : ℕ → α) (i : ℕ), i < n →
      ((List.range n).map f).getD i d = f i := by
  intro n
  induction n with
  | zero => intro f i h; exact absurd h (Nat.not_lt_zero i)
  | succ n ih =>
      intro f i h
      rw [List.range_succ_eq_map, List.map_cons, List.map_map]
      cases i with
      | zero => rfl
      | succ i =>
          rw [List.getD_cons_succ]
          exact ih (f ∘ Nat.succ) i (Nat.lt_of_succ_lt_succ h)

/-- Reading every position of a list back off gives the list. -/
theorem range_map_getD {α : Type} (d : α) :
    ∀ l : List α, (List.range l.length).map (fun i => l.getD i d) = l := by
  intro l
  induction l with
  | nil => rfl
  | cons a l ih =>
      rw [List.length_cons, List.range_succ_eq_map, List.map_cons,
        List.map_map]
      have h2 : ((fun i => (a :: l).getD i d) ∘ Nat.succ) =
          fun i => l.getD i d := by
        funext i
        rfl
      rw [h2, ih]
      rfl

/-- Reindex lookup against a table keyed by the hours of `hs`: the stored
aggregate when the hour has a row, the zero fill otherwise. -/
theorem lookupD_tableOf (g : ℤ → ℚ) :
    ∀ (hs : List ℤ) (h : ℤ),
      lookupD (tableOf g hs) h = if h ∈ hs then g h else 0 := by
  intro hs
  induction hs with
  | nil => intro h; simp [lookupD, tableOf]
  | cons x xs ih =>
      intro h
      by_cases hx : x = h
      · subst hx
        rw [tableOf, List.map_cons, lookupD,
          List.find?_cons_of_pos _ (by simp)]
        simp
      · rw [tableOf, List.map_cons, lookupD,
          List.find?_cons_of_neg _ (by simp [hx])]
        have hmem : (h ∈ x :: xs) ↔ h ∈ xs := by
          rw [List.mem_cons]
          constructor
          · intro hh
            rcases hh with h1 | h2
            · exact absurd h1.symm hx
            · exact h2
          · intro hh
            exact Or.inr hh
        rw [if_congr hmem rfl rfl, ← ih h]
        rfl

/-- The per-bin article count is the number of events in the bin. -/
theorem binCount_eq_length (evs : List NewsEvent) (h : ℤ) :
    binCount evs h = ((binEvents evs h).length : ℚ) := by
  rw [binCount]
  induction binEvents evs h with
  | nil => rfl
  | cons e es ih => simp [ih]; ring

/-- A bin whose article count is zero holds no events. -/
theorem binEvents_eq_nil_of_count (evs : List NewsEvent) (h : ℤ)
    (hc : binCount evs h = 0) : binEvents evs h = [] := by
  rw [binCount_eq_length] at hc
  have hlen : (binEvents evs h).length = 0 := by exact_mod_cast hc
  exact List.length_eq_zero.mp hlen

/-- Every reindexed article-count entry is nonnegative. -/
theorem lookupD_count_nonneg (rel : List NewsEvent) (bins : List ℤ) (h : ℤ) :
    0 ≤ lookupD (tableOf (binCount rel) bins) h := by
  rw [lookupD_tableOf]
  by_cases hmem : h ∈ bins
  · rw [if_pos hmem, binCount_eq_length]
    exact Nat.cast_nonneg _
  · rw [if_neg hmem]

/-- Where the reindexed article count vanishes, the reindexed sentiment sum
and bullish/bearish counts vanish as well. -/
theorem lookup_zero_of_count_zero (rel : List NewsEvent) (bins : List ℤ)
    (h : ℤ) (hc : lookupD (tableOf (binCount rel) bins) h = 0) :
    lookupD (tableOf (binSentSum rel) bins) h = 0 ∧
    lookupD (tableOf (binBullish rel) bins) h = 0 ∧
    lookupD (tableOf (binBearish rel) bins) h = 0 := by
  rw [lookupD_tableOf] at hc
  rw [lookupD_tableOf, lookupD_tableOf, lookupD_tableOf]
  by_cases hmem : h ∈ bins
  · rw [if_pos hmem] at hc
    have hnil := binEvents_eq_nil_of_count rel h hc
    rw [if_pos hmem, if_pos hmem, if_pos hmem, binSentSum, binBullish,
      binBearish, hnil]
    exact ⟨rfl, rfl, rfl⟩
  · rw [if_neg hmem, if_neg hmem, if_neg hmem]
    exact ⟨rfl, rfl, rfl⟩

/-- A list of nonnegative values summing to zero is pointwise zero. -/
theorem map_sum_zero_all {F : ℤ → ℚ} :
    ∀ hs : List ℤ, (∀ h ∈ hs, 0 ≤ F h) → (hs.map F).sum = 0 →
      ∀ h ∈ hs, F h = 0 := by
  intro hs
  induction hs with
  | nil => intro _ _ h hh; exact absurd hh (List.not_mem_nil h)
  | cons x xs ih =>
      intro hpos hsum h hh
      rw [List.map_cons, List.sum_cons] at hsum
      have h1 : 0 ≤ F x := hpos x (List.mem_cons_self x xs)
      have h2 : 0 ≤ (xs.map F).sum := by
        apply List.sum_nonneg
        intro y hy
        obtain ⟨u, hu, rfl⟩ := List.mem_map.mp hy
        exact hpos u (List.mem_cons_of_mem x hu)
      have hx0 : F x = 0 := by linarith
      have hs0 : (xs.map F).sum = 0 := by linarith
      rcases List.mem_cons.mp hh with h3 | h3
      · rw [h3]
        exact hx0
      · exact ih (fun y hy => hpos y (List.mem_cons_of_mem x hy)) hs0 h h3

/-- Positional access into a trailing-window sum. -/
theorem trailingSum_getD (w : ℕ) (xs : List ℚ) (i : ℕ) (h : i < xs.length) :
    (trailingSum w xs).getD i 0 = ((xs.take (i + 1)).drop (i + 1 - w)).sum := by
  rw [trailingSum]
  exact getD_map_range 0 xs.length _ i h

/-- The feature rows carry the hourly index as their timestamps. -/
theorem buildRows_map_ts (rel : List NewsEvent) (s : Settings) (now : ℤ) :
    (buildRows rel s now).map (fun r => r.ts) = hourIndex s now := by
  unfold buildRows
  rw [List.map_map]
  have h2 : ∀ f : ℕ → FeatureRow, (∀ i, (f i).ts = (hourIndex s now).getD i 0) →
      ((fun r : FeatureRow => r.ts) ∘ f) = fun i => (hourIndex s now).getD i 0 := by
    intro f hf
    funext i
    exact hf i
  rw [h2 _ (fun i => rfl)]
  exact range_map_getD 0 (hourIndex s now)

/-- The number of feature rows equals the length of the hourly index. -/
theorem buildRows_length (rel : List NewsEvent) (s : Settings) (now : ℤ) :
    (buildRows rel s now).length = (hourIndex s now).length := by
  unfold buildRows
  rw [List.length_map, List.length_range]

/-- The `i`-th feature row, written out in terms of the named pipeline
stages. -/
theorem buildRows_getD (rel : List NewsEvent) (s : Settings) (now : ℤ)
    (i : ℕ) (hi : i < (hourIndex s now).length) :
    (buildRows rel s now).getD i defaultFeatureRow =
      { ts := (hourIndex s now).getD i 0
        sentiment_score :=
          (trailingSum s.sentiment_window_hours
            (colOf (binSentSum rel) rel s now)).getD i 0 /
          (if (trailingSum s.sentiment_window_hours
              (colOf (binCount rel) rel s now)).getD i 0 = 0 then 1
            else (trailingSum s.sentiment_window_hours
              (colOf (binCount rel) rel s now)).getD i 0)
        bullish_ratio :=
          (trailingSum s.sentiment_window_hours
            (colOf (binBullish rel) rel s now)).getD i 0 /
          (if (trailingSum s.sentiment_window_hours
              (colOf (binCount rel) rel s now)).getD i 0 = 0 then 1
            else (trailingSum s.sentiment_window_hours
              (colOf (binCount rel) rel s now)).getD i 0)
        bearish_ratio :=
          (trailingSum s.sentiment_window_hours
            (colOf (binBearish rel) rel s now)).getD i 0 /
          (if (trailingSum s.sentiment_window_hours
              (colOf (binCount rel) rel s now)).getD i 0 = 0 then 1
            else (trailingSum s.sentiment_window_hours
              (colOf (binCount rel) rel s now)).getD i 0)
        article_count :=
          (trailingSum s.sentiment_window_hours
            (colOf (binCount rel) rel s now)).getD i 0 } := by
  unfold buildRows
  exact getD_map_range defaultFeatureRow (hourIndex s now).length _ i hi

/-- Unfolding the guards of the feature builder on non-empty relevant
input. -/
theorem build_eq_buildRows (df : List NewsEvent) (s : Settings) (now : ℤ)
    (hdf : df.isEmpty = false) (hre : (relevantNews df).isEmpty = false) :
    build_macro_sentiment_timeseries df s now =
      buildRows (relevantNews df) s now := by
  simp only [build_macro_sentiment_timeseries, hdf, hre, Bool.false_eq_true,
    if_false]

/-- A vanishing trailing article count forces the trailing sentiment sum
and bullish/bearish counts at the same row to vanish. -/
theorem trailing_count_zero (rel : List NewsEvent) (s : Settings) (now : ℤ)
    (i : ℕ) (hi : i < (hourIndex s now).length)
    (hc : (trailingSum s.sentiment_window_hours
      (colOf (binCount rel) rel s now)).getD i 0 = 0) :
    (trailingSum s.sentiment_window_hours
      (colOf (binSentSum rel) rel s now)).getD i 0 = 0 ∧
    (trailingSum s.sentiment_window_hours
      (colOf (binBullish rel) rel s now)).getD i 0 = 0 ∧
    (trailingSum s.sentiment_window_hours
      (colOf (binBearish rel) rel s now)).getD i 0 = 0 := by
  have hslice : ∀ g : ℤ → ℚ,
      (trailingSum s.sentiment_window_hours (colOf g rel s now)).getD i 0 =
        ((((hourIndex s now).take (i + 1)).drop
          (i + 1 - s.sentiment_window_hours)).map
            (lookupD (tableOf g (resampleHours rel)))).sum := by
    intro g
    rw [colOf, reindexColumn,
      trailingSum_getD _ _ _ (by rw [List.length_map]; exact hi),
      ← List.map_take, ← List.map_drop]
  have hzero := map_sum_zero_all
    (F := lookupD (tableOf (binCount rel) (resampleHours rel)))
    (((hourIndex s now).take (i + 1)).drop (i + 1 - s.sentiment_window_hours))
    (fun h _ => lookupD_count_nonneg rel (resampleHours rel) h)
    ((hslice (binCount rel)).symm.trans hc)
  refine ⟨?_, ?_, ?_⟩
  · rw [hslice]
    apply List.sum_eq_zero
    intro y hy
    obtain ⟨h, hh, rfl⟩ := List.mem_map.mp hy
    exact (lookup_zero_of_count_zero rel _ h (hzero h hh)).1
  · rw [hslice]
    apply List.sum_eq_zero
    intro y hy
    obtain ⟨h, hh, rfl⟩ := List.mem_map.mp hy
    exact (lookup_zero_of_count_zero rel _ h (hzero h hh)).2.1
  · rw [hslice]
    apply List.sum_eq_zero
    intro y hy
    obtain ⟨h, hh, rfl⟩ := List.mem_map.mp hy
    exact (lookup_zero_of_count_zero rel _ h (hzero h hh)).2.2

/-! ## Claims about the feature builder -/

/-- Claim C4: with at least one relevant event, the output has exactly one
row per hour of the fixed target index from `now - 30·backtest_months` days
to `now` inclusive at 1-hour spacing, and hour bins holding no events
contribute a zero article count and zero sentiment sum after re-indexing. -/
theorem claim_C4_hourly_index (df : List NewsEvent) (s : Settings) (now : ℤ)
    (hrel : relevantNews df ≠ []) :
    ((build_macro_sentiment_timeseries df s now).map (fun r => r.ts) =
      hourIndex s now) ∧
    ∀ h ∈ hourIndex s now, binEvents (relevantNews df) h = [] →
      lookupD (tableOf (binCount (relevantNews df))
        (resampleHours (relevantNews df))) h = 0 ∧
      lookupD (tableOf (binSentSum (relevantNews df))
        (resampleHours (relevantNews df))) h = 0 := by
  have hdf : df.isEmpty = false := by
    cases df with
    | nil => exact absurd rfl hrel
    | cons a l => rfl
  have hre : (relevantNews df).isEmpty = false := by
    cases hq : relevantNews df with
    | nil => exact absurd hq hrel
    | cons a l => rfl
  constructor
  · rw [build_eq_buildRows df s now hdf hre]
    exact buildRows_map_ts _ s now
  · intro h _ hnil
    constructor
    · rw [lookupD_tableOf]
      by_cases hb : h ∈ resampleHours (relevantNews df)
      · rw [if_pos hb, binCount, hnil]
        rfl
      · rw [if_neg hb]
    · rw [lookupD_tableOf]
      by_cases hb : h ∈ resampleHours (relevantNews df)
      · rw [if_pos hb, binSentSum, hnil]
        rfl
      · rw [if_neg hb]

/-- A one-event labeled-news input used by feature-builder witnesses. -/
def dfW : List NewsEvent := [⟨0, 1, 1⟩]

/-- Settings with a zero-month lookback so the target index is a single
hour. -/
def settingsW : Settings := { defaultSettings with backtest_months := 0 }

/-- Witness for C4: one relevant event, zero-month lookback, `now = 0`. -/
theorem claim_C4_hourly_index_witness :
    ((build_macro_sentiment_timeseries dfW settingsW 0).map (fun r => r.ts) =
      hourIndex settingsW 0) ∧
    ∀ h ∈ hourIndex settingsW 0, binEvents (relevantNews dfW) h = [] →
      lookupD (tableOf (binCount (relevantNews dfW))
        (resampleHours (relevantNews dfW))) h = 0 ∧
      lookupD (tableOf (binSentSum (relevantNews dfW))
        (resampleHours (relevantNews dfW))) h = 0 :=
  claim_C4_hourly_index dfW settingsW 0 (by decide)

/-- Claim C5: any output row whose trailing article count is zero has
sentiment score, bullish ratio and bearish ratio all zero (the substituted
denominator 1 keeps the division defined). -/
theorem claim_C5_zero_denominator (df : List NewsEvent) (s : Settings)
    (now : ℤ) (i : ℕ)
    (hi : i < (build_macro_sentiment_timeseries df s now).length)
    (hc : ((build_macro_sentiment_timeseries df s now).getD i
      defaultFeatureRow).article_count = 0) :
    ((build_macro_sentiment_timeseries df s now).getD i
      defaultFeatureRow).sentiment_score = 0 ∧
    ((build_macro_sentiment_timeseries df s now).getD i
      defaultFeatureRow).bullish_ratio = 0 ∧
    ((build_macro_sentiment_timeseries df s now).getD i
      defaultFeatureRow).bearish_ratio = 0 := by
  cases hdf : df.isEmpty with
  | true =>
      exfalso
      have hb : build_macro_sentiment_timeseries df s now = [] := by
        simp [build_macro_sentiment_timeseries, hdf]
      rw [hb] at hi
      simp at hi
  | false =>
      cases hre : (relevantNews df).isEmpty with
      | true =>
          exfalso
          have hb : build_macro_sentiment_timeseries df s now = [] := by
            simp [build_macro_sentiment_timeseries, hdf, hre]
          rw [hb] at hi
          simp at hi
      | false =>
          have hb := build_eq_buildRows df s now hdf hre
          rw [hb] at hi hc ⊢
          have hi' : i < (hourIndex s now).length := by
            rw [← buildRows_length (relevantNews df) s now]
            exact hi
          rw [buildRows_getD (relevantNews df) s now i hi'] at hc ⊢
          dsimp only at hc ⊢
          obtain ⟨h1, h2, h3⟩ :=
            trailing_count_zero (relevantNews df) s now i hi' hc
          rw [if_pos hc, h1, h2, h3]
          norm_num

/-- Witness for C5: with the single event out of the one-hour index window,
the sole row has zero trailing count and zero ratios. -/
theorem claim_C5_zero_denominator_witness :
    ((build_macro_sentiment_timeseries dfW settingsW 5).getD 0
      defaultFeatureRow).sentiment_score = 0 ∧
    ((build_macro_sentiment_timeseries dfW settingsW 5).getD 0
      defaultFeatureRow).bullish_ratio = 0 ∧
    ((build_macro_sentiment_timeseries dfW settingsW 5).getD 0
      defaultFeatureRow).bearish_ratio = 0 :=
  claim_C5_zero_denominator dfW settingsW 5 0
    (by rw [build_eq_buildRows dfW settingsW 5 rfl rfl, buildRows_length]
        decide)
    (by rw [build_eq_buildRows dfW settingsW 5 rfl rfl,
          buildRows_getD (relevantNews dfW) settingsW 5 0 (by decide)]
        norm_num [trailingSum, colOf, reindexColumn, tableOf, lookupD,
          resampleHours, binCount, binSentSum, binEvents, binOf,
          relevantNews, dfW, settingsW, defaultSettings, hourIndex,
          List.range_succ])

/-- Counterexample to claim C6 as stated: the feature builder's output is
anchored at the wall-clock instant `now`, so the same labeled input and
configuration produce different series at different evaluation instants
(the target index moves with `now`). -/
theorem claim_C6_now_dependence_counterexample :
    build_macro_sentiment_timeseries dfW settingsW 0 ≠
      build_macro_sentiment_timeseries dfW settingsW 1 := by
  intro hEq
  have h0 : (build_macro_sentiment_timeseries dfW settingsW 0).map
      (fun r => r.ts) = hourIndex settingsW 0 := by
    rw [build_eq_buildRows dfW settingsW 0 rfl rfl]
    exact buildRows_map_ts _ _ _
  have h1 : (build_macro_sentiment_timeseries dfW settingsW 1).map
      (fun r => r.ts) = hourIndex settingsW 1 := by
    rw [build_eq_buildRows dfW settingsW 1 rfl rfl]
    exact buildRows_map_ts _ _ _
  have hne : hourIndex settingsW 0 ≠ hourIndex settingsW 1 := by decide
  exact hne (by rw [← h0, hEq, h1])

/-- Amended claim C6: re-running the feature builder on the same labeled
input, configuration, and anchor instant `now` yields a bit-identical
series — the embedded builder is a pure function of these three inputs. -/
theorem claim_C6_amended_determinism (df : List NewsEvent) (s : Settings)
    (now : ℤ) :
    build_macro_sentiment_timeseries df s now =
      build_macro_sentiment_timeseries df s now := rfl

end PolymarketNews
